import Mathlib

/-!
# Verification of the CycleSense preprocessing pipeline (`preprocess.py`)

This file gives a shallow embedding of the data model and the operations of the
CycleSense preprocessing pipeline and proves (or refutes) the frozen claims
about it.

Conventions of the embedding:
* A CSV ride file is a `List Row` (one `Row` per data line); a missing cell
  (pandas `NaN`, or a cell blanked to `''`, which reads back as `NaN`) is
  `Option.none`.
* Timestamps are integers (unix milliseconds); all other sensor values are
  rationals.  The pipeline claims under scrutiny do not depend on
  floating-point rounding, so exact rational arithmetic is used.
* A numpy 2-D array (one ride at bucketization time) is a `List (List ℚ)` of
  rows; a bucket (3-D tensor of shape `window_size × slices × channels`) is a
  `List (List (List ℚ))`.
* File deletion (`os.remove`) is modelled by returning `Option.none` for the
  deleted file, or by filtering a file out of a split's file list.
-/

/-- One data row of a raw exported ride file, before any column is dropped:
timestamp, accelerometer `X,Y,Z`, orientation `a,b,c`, optional linear
accelerometer `XL,YL,ZL`, GPS `lat`/`lon`/`acc`(uracy) and the incident flag.
`none` models a missing value (pandas `NaN`). -/
structure Row where
  timeStamp : Option ℤ
  X : Option ℚ
  Y : Option ℚ
  Z : Option ℚ
  a : Option ℚ
  b : Option ℚ
  c : Option ℚ
  XL : Option ℚ
  YL : Option ℚ
  ZL : Option ℚ
  lat : Option ℚ
  lon : Option ℚ
  acc : Option ℚ
  incident : Option ℚ
deriving DecidableEq, Inhabited

/-- One data row after `remove_acc_outliers` has dropped the `acc` column:
the same frame as `Row` but without the GPS-accuracy column. -/
structure RowN where
  timeStamp : Option ℤ
  X : Option ℚ
  Y : Option ℚ
  Z : Option ℚ
  a : Option ℚ
  b : Option ℚ
  c : Option ℚ
  XL : Option ℚ
  YL : Option ℚ
  ZL : Option ℚ
  lat : Option ℚ
  lon : Option ℚ
  incident : Option ℚ
deriving DecidableEq, Inhabited

/-- The dataset as seen by a pipeline stage: the lists of ride files of the
`train`, `test` and `val` splits (of the target region). -/
structure Dataset (α : Type) where
  train : List (List α)
  test : List (List α)
  val : List (List α)

/-! ## Stage 10: `create_buckets` (lines 545–625)

`np.genfromtxt` yields a 2-D float array (one row per CSV line, label =
`incident` in the last column).  The code removes the first and last 60 rows
with the slice `arr[60:-60, :]`, floors the remaining length to a multiple of
`window_size * slices`, reshapes to `(n_buckets, slices, window_size, C)`,
transposes axes to `(n_buckets, window_size, slices, C)`, OR-reduces the label
channel per bucket (`np.any`) and broadcasts the resulting bool (`1.0`/`0.0`)
back over the whole label channel of the bucket.

Numpy slicing never raises: for a 2-D array with at most 120 rows,
`arr[60:-60, :]` is simply the empty array, so the
`raise ValueError('not enough data points to remove')` branch is reachable
only when `np.genfromtxt` produced a 1-D array, i.e. when the file has at
most one data row.  This is modelled faithfully below. -/

/-- `arr[60:-60, :]`: drop the first 60 and the last 60 rows (empty when the
ride has at most 120 rows, matching Python slice semantics). -/
def truncRows (rows : List (List ℚ)) : List (List ℚ) :=
  (rows.drop 60).take (rows.length - 120)

/-- The cell `r[i]` read as the label: the last entry of a row
(`arr[..., -1]`), defaulting to `0` for a (non-occurring) empty row. -/
def lastCell (r : List ℚ) : ℚ :=
  r.getLastD 0

/-- The group of `window_size * slices` consecutive usable rows that bucket
number `i` is built from. -/
def bucketGroup (windowSize slices : ℕ) (rows : List (List ℚ)) (i : ℕ) :
    List (List ℚ) :=
  ((truncRows rows).drop (i * (windowSize * slices))).take (windowSize * slices)

/-- `np.any` over the label channel of one bucket: whether any contributing
row has a nonzero label (numpy truthiness: nonzero). -/
def groupHasIncident (g : List (List ℚ)) : Bool :=
  g.any (fun r => lastCell r != 0)

/-- Number of buckets a ride yields:
`(arr.shape[0] // (window_size * slices))` after truncation. -/
def numBuckets (windowSize slices : ℕ) (rows : List (List ℚ)) : ℕ :=
  (truncRows rows).length / (windowSize * slices)

/-- One bucket, after the reshape to `(slices, window_size, C)`, the
transpose to `(window_size, slices, C)` and the label broadcast
`bucket[:, :, -1] = labels[i]`: cell `(w, s)` is usable row
`s * window_size + w` of the group, with its last channel replaced by the
bucket label. -/
def mkBucket (windowSize slices : ℕ) (lab : ℚ) (g : List (List ℚ)) :
    List (List (List ℚ)) :=
  (List.range windowSize).map (fun w =>
    (List.range slices).map (fun s =>
      (g.getD (s * windowSize + w) []).dropLast ++ [lab]))

/-- All buckets of one ride, each paired with its label flag (`labels[i]`). -/
def buildLabeledBuckets (windowSize slices : ℕ) (rows : List (List ℚ)) :
    List (Bool × List (List (List ℚ))) :=
  (List.range (numBuckets windowSize slices rows)).map (fun i =>
    let g := bucketGroup windowSize slices rows i
    let flag := groupHasIncident g
    (flag, mkBucket windowSize slices (if flag then 1 else 0) g))

/-- The buckets of one ride as appended to `buckets_list`
(`in_memory` mode). -/
def buildBuckets (windowSize slices : ℕ) (rows : List (List ℚ)) :
    List (List (List (List ℚ))) :=
  (buildLabeledBuckets windowSize slices rows).map Prod.snd

/-- `str(i).zfill(5)`: decimal representation left-padded with zeros to
width 5. -/
def zfill5 (n : ℕ) : String :=
  let s := toString n
  String.mk (List.replicate (5 - s.length) '0') ++ s

/-- The key under which bucket `i` of ride `stem` is stored in `addressable`
(non-`in_memory`) mode: `<stem>_no<i zero-padded to 5>_bucket` with the
suffix `_incident` appended for positive buckets. -/
def bucketName (stem : String) (i : ℕ) (pos : Bool) : String :=
  stem ++ "_no" ++ zfill5 i ++ (if pos then "_bucket_incident" else "_bucket")

/-- The buckets of one ride as entered into `buckets_dict`
(addressable mode). -/
def buildBucketsDict (windowSize slices : ℕ) (stem : String)
    (rows : List (List ℚ)) : List (String × List (List (List ℚ))) :=
  (buildLabeledBuckets windowSize slices rows).enum.map (fun p =>
    (bucketName stem p.1 p.2.1, p.2.2))

/-- The per-file bucketization step with its error behaviour.  The
`except`/`raise ValueError('not enough data points to remove')` around
`arr[60:-60, :]` fires only when `np.genfromtxt` returned a 1-D array (file
with at most one data row); for every 2-D array the slice succeeds — possibly
yielding an empty array and hence zero buckets — and the remaining reshape,
transpose and label assignment succeed as well. -/
def bucketizeFile (windowSize slices : ℕ) (rows : List (List ℚ)) :
    Except String (List (List (List (List ℚ)))) :=
  if rows.length ≤ 1 then
    Except.error "not enough data points to remove"
  else
    Except.ok (buildBuckets windowSize slices rows)

/-! ## Stage 2: `remove_invalid_rides` (lines 47–79)

The code copies the frame, replaces the `timeStamp` column by its successive
differences (`df.diff()`, so the first row's timestamp becomes `NaN`),
records `breakpoints` where the difference exceeds `6000`, drops every row of
the copy containing a `NaN` and deletes the file when the copy became empty
or a breakpoint exists. -/

/-- Whether all columns of a raw row other than `timeStamp` are present
(`XL,YL,ZL` exist in the frame only when the linear accelerometer was
exported). -/
def rowFieldsComplete (linAcc : Bool) (r : Row) : Bool :=
  r.X.isSome && r.Y.isSome && r.Z.isSome && r.a.isSome && r.b.isSome &&
    r.c.isSome && r.lat.isSome && r.lon.isSome && r.acc.isSome &&
    r.incident.isSome && (!linAcc || (r.XL.isSome && r.YL.isSome && r.ZL.isSome))

/-- `df['timeStamp'].diff()`: entry `i` is `ts[i] - ts[i-1]` when both are
present, `none` otherwise; the first entry is always `none`. -/
def tsDiffs (ride : List Row) : List (Option ℤ) :=
  match ride with
  | [] => []
  | r :: rest =>
    none :: List.zipWith (fun p q =>
      match p.timeStamp, q.timeStamp with
      | some u, some v => some (v - u)
      | _, _ => none) (r :: rest) rest

/-- `np.where((df_cp['timeStamp'] > 6000))` is nonempty: some defined
adjacent difference exceeds 6000 ms (`NaN > 6000` is false in numpy). -/
def hasBreakpoint (ride : List Row) : Bool :=
  (tsDiffs ride).any (fun d =>
    match d with
    | some v => decide (6000 < v)
    | none => false)

/-- The rows of the diffed copy that survive `df_cp.dropna()`: all
non-timestamp fields present and the timestamp difference defined. -/
def keptAfterDiffDropna (linAcc : Bool) (ride : List Row) : List (Row × Option ℤ) :=
  (ride.zip (tsDiffs ride)).filter (fun p => rowFieldsComplete linAcc p.1 && p.2.isSome)

/-- `remove_invalid_rides_inner`: `none` models `os.remove(file)`; otherwise
the file is untouched. -/
def remove_invalid_rides_inner (linAcc : Bool) (ride : List Row) : Option (List Row) :=
  if (keptAfterDiffDropna linAcc ride).isEmpty || hasBreakpoint ride then none
  else some ride

/-- Modelled from the spec's words (for comparison with the code): the number
of "valid rows after dropping incomplete ones" of the original file, i.e.
rows with no missing value in any column. -/
def specValidRowCount (linAcc : Bool) (ride : List Row) : ℕ :=
  (ride.filter (fun r => r.timeStamp.isSome && rowFieldsComplete linAcc r)).length

/-- Modelled from the spec's words (for comparison with the code): some
adjacent-row timestamp difference exceeds 6000 ms. -/
def specLargeGap (ride : List Row) : Bool :=
  (List.zipWith (fun p q =>
    match p.timeStamp, q.timeStamp with
    | some u, some v => decide (6000 < v - u)
    | _, _ => false) ride ride.tail).any id

/-! ## Stage 3: `remove_sensor_values_from_gps_timestamps` (lines 82–117)

Only files whose name stem ends in `'a'` (Android exports) are touched: in
them, every row with `lat`, `lon` and `acc` all present has its inertial
fields set to `''` (which reads back as `NaN`, i.e. `none`). -/

/-- A GPS sample row: `df[['lat', 'lon', 'acc']].dropna()` keeps exactly the
rows where all three are present. -/
def gpsComplete (r : Row) : Bool :=
  r.lat.isSome && r.lon.isSome && r.acc.isSome

/-- Blank the inertial-sensor fields of a row
(`df_cp[['X', 'Y', 'Z', 'a', 'b', 'c']] = ''`, plus `XL,YL,ZL` when the
linear accelerometer flag is set). -/
def blankSensors (linAcc : Bool) (r : Row) : Row :=
  { r with
    X := none, Y := none, Z := none, a := none, b := none, c := none,
    XL := if linAcc then none else r.XL,
    YL := if linAcc then none else r.YL,
    ZL := if linAcc then none else r.ZL }

/-- `os.path.splitext(file)[0][-1] == 'a'`: the last character of the file
name stem (given as its character list) is `'a'` (Android export). -/
def isAndroidStem (stem : List Char) : Bool :=
  stem.getLast? == some 'a'

/-- `remove_sensor_values_from_gps_timestamps_inner`, keyed by the file name
stem (`os.path.splitext(file)[0]`): non-Android files pass through
unchanged. -/
def remove_sensor_values_from_gps_timestamps_inner (linAcc : Bool)
    (stem : List Char) (ride : List Row) : List Row :=
  if isAndroidStem stem then
    ride.map (fun r => if gpsComplete r then blankSensors linAcc r else r)
  else ride

/-! ## IQR outlier bounds (`np.percentile` with linear interpolation) -/

/-- Insert into a sorted list (ascending). -/
def insertSorted (x : ℚ) : List ℚ → List ℚ
  | [] => [x]
  | y :: ys => if x ≤ y then x :: y :: ys else y :: insertSorted x ys

/-- Sort ascending (as `np.percentile` does internally). -/
def sortQ (l : List ℚ) : List ℚ :=
  l.foldr insertSorted []

/-- `np.percentile(arr, q)` with the default linear interpolation:
position `h = (n-1)·q/100`, result `a[⌊h⌋] + (h-⌊h⌋)·(a[⌊h⌋+1] - a[⌊h⌋])`. -/
def percentile (q : ℚ) (xs : List ℚ) : ℚ :=
  if xs.isEmpty then 0
  else
    let s := sortQ xs
    let h : ℚ := ((s.length : ℚ) - 1) * q / 100
    let lo : ℕ := (Int.floor h).toNat
    let v1 := s.getD lo 0
    let v2 := s.getD (lo + 1) v1
    v1 + (h - (lo : ℚ)) * (v2 - v1)

/-- `lower = Q25 - k·IQR`, `upper = Q75 + k·IQR` (`cut_off = iqr * k`). -/
def iqrBounds (k : ℚ) (values : List ℚ) : ℚ × ℚ :=
  let q25 := percentile 25 values
  let q75 := percentile 75 values
  let iqr := q75 - q25
  (q25 - iqr * k, q75 + iqr * k)

/-! ## Stage 4: `remove_acc_outliers` (lines 120–183)

The bound-fitting pass runs over the *train* split only; train files whose
`acc` column is entirely missing are deleted (`os.remove`), the others
contribute `df[['acc']].dropna()` to the pooled array.  The second pass
applies the bounds to all three splits and unconditionally drops the `acc`
column. -/

/-- `df[['acc']].dropna()` of one ride. -/
def accColumn (ride : List Row) : List ℚ :=
  ride.filterMap (fun r => r.acc)

/-- The `(lower, upper)` GPS-accuracy bounds, computed with `k = 1.5` from
the train split only (files with an empty `acc` column are removed first). -/
def accStageBounds (d : Dataset Row) : ℚ × ℚ :=
  iqrBounds (3 / 2) (((d.train.filter (fun f => !(accColumn f).isEmpty)).map accColumn).flatten)

/-- Whether a row's `acc` value is out of bounds (`NaN` comparisons are
false, so rows with missing `acc` are never outliers). -/
def accOutlierRow (lower upper : ℚ) (r : Row) : Bool :=
  match r.acc with
  | some v => decide (v < lower) || decide (upper < v)
  | none => false

/-- `df.drop(columns=['acc'])` applied to one row: same fields, no `acc`. -/
def dropAccCol (r : Row) : RowN :=
  ⟨r.timeStamp, r.X, r.Y, r.Z, r.a, r.b, r.c, r.XL, r.YL, r.ZL, r.lat, r.lon, r.incident⟩

/-- `remove_acc_outliers_inner`: blank `lat`/`lon` on out-of-bound rows, then
drop the `acc` column (for every file, outliers present or not). -/
def remove_acc_outliers_inner (lower upper : ℚ) (ride : List Row) : List RowN :=
  ride.map (fun r =>
    if accOutlierRow lower upper r then dropAccCol { r with lat := none, lon := none }
    else dropAccCol r)

/-- The whole stage over the dataset: fit bounds on train, apply the inner
pass to every split. -/
def remove_acc_outliers (d : Dataset Row) : Dataset RowN :=
  let train1 := d.train.filter (fun f => !(accColumn f).isEmpty)
  let bds := accStageBounds d
  ⟨train1.map (remove_acc_outliers_inner bds.1 bds.2),
   d.test.map (remove_acc_outliers_inner bds.1 bds.2),
   d.val.map (remove_acc_outliers_inner bds.1 bds.2)⟩

/-! ## Stage 6: `equidistant_interpolate` incident reassignment (lines 327–354)

After the merged frame (original rows plus net-new grid rows) has been
deduplicated, sorted and interpolated, the code snapshots the rows with
`incident > 0` and, for each of them, searches the *current* index for the
nearest timestamp: if that timestamp is in `removables` (an original
timestamp not on the new grid) the row is dropped and the timestamp removed
from `removables`, and the search repeats; otherwise `incident` is set to
`1.0` at it.  Finally `df.drop(removables)` deletes the remaining removable
rows and `df['incident'].fillna(0)` fills missing labels.

The loop reads only the timestamp index and writes only the `incident`
column, so the frame is modelled here as `List (ℤ × Option ℚ)` of
(timestamp, incident) pairs; all other (already interpolated) channels are
untouched by these lines. -/

/-- One step of the nearest-timestamp scan: keep the candidate at smaller
distance from `t`, preferring the later (rightmost) one on ties. -/
def nearestStep (t : ℤ) (best : Option ℤ) (x : ℤ) : Option ℤ :=
  match best with
  | none => some x
  | some b1 => if (x - t).natAbs ≤ (b1 - t).natAbs then some x else some b1

/-- `df.index.get_indexer([t], method='nearest')` over a monotonic index:
an element at minimal distance from `t` (pandas resolves exact ties towards
the later timestamp; the fold keeps the rightmost minimizer). -/
def nearestIdx (ts : List ℤ) (t : ℤ) : Option ℤ :=
  ts.foldl (nearestStep t) none

/-- `df.at[i, 'incident'] = 1.0`. -/
def setIncidentAt (df : List (ℤ × Option ℚ)) (i : ℤ) : List (ℤ × Option ℚ) :=
  df.map (fun p => if p.1 = i then (p.1, some 1) else p)

/-- The `while found != True` search for a single incident row: find the
nearest timestamp; a removable hit is dropped from the frame and consumed
from `removables`; a surviving hit receives the label.  The fuel argument
bounds the iterations (each failed probe strictly shrinks the frame, so
`df.length + 1` always suffices); `none` models the non-terminating /
erroring behaviour on a frame whose timestamps are all removable. -/
def assignIncident :
    ℕ → List (ℤ × Option ℚ) → List ℤ → ℤ → Option (ℤ × List (ℤ × Option ℚ) × List ℤ)
  | 0, _, _, _ => none
  | fuel + 1, df, removables, t =>
    match nearestIdx (df.map Prod.fst) t with
    | none => none
    | some idx =>
      if idx ∈ removables then
        assignIncident fuel (df.filter (fun p => decide (p.1 ≠ idx)))
          (removables.erase idx) t
      else
        some (idx, setIncidentAt df idx, removables)

/-- The `for i in range(incident_list.shape[0])` loop: assign every
snapshotted incident timestamp in order, threading the frame and the
removable set. -/
def processIncidents :
    List ℤ → List (ℤ × Option ℚ) → List ℤ →
      Option (List ℤ × List (ℤ × Option ℚ) × List ℤ)
  | [], df, removables => some ([], df, removables)
  | t :: ts, df, removables =>
    match assignIncident (df.length + 1) df removables t with
    | none => none
    | some (a1, df1, rem1) =>
      match processIncidents ts df1 rem1 with
      | none => none
      | some (rest, df2, rem2) => some (a1 :: rest, df2, rem2)

/-- `df.loc[df['incident'] > 0]` (`NaN > 0` is false, so the net-new grid
rows are never snapshotted). -/
def incidentPositive (o : Option ℚ) : Bool :=
  match o with
  | some v => decide (0 < v)
  | none => false

/-- The timestamps of the snapshotted incident rows. -/
def incidentTimestamps (df : List (ℤ × Option ℚ)) : List ℤ :=
  (df.filter (fun p => incidentPositive p.2)).map Prod.fst

/-- Lines 327–352 as one function: snapshot the incidents, run the
reassignment loop, then `df.drop(removables)` and
`df['incident'].fillna(0)`.  Returns the list of assigned timestamps (one
per snapshotted incident, in order), the final frame and the final
removable set. -/
def equidistantReassign (df : List (ℤ × Option ℚ)) (removables : List ℤ) :
    Option (List ℤ × List (ℤ × ℚ) × List ℤ) :=
  match processIncidents (incidentTimestamps df) df removables with
  | none => none
  | some (assigned, df1, rem1) =>
    some (assigned,
      (df1.filter (fun p => decide (p.1 ∉ rem1))).map (fun p => (p.1, p.2.getD 0)),
      rem1)

/-- The invariant of the reassignment loop, relative to the initial
removable set `rem0`: some frame timestamp is not removable (so every
nearest-search terminates on a survivor), the current removables are among
the initial ones, and every initially-removable timestamp still present in
the frame is still marked removable (consumed removables have been dropped
from the frame). -/
def ReInv (rem0 : List ℤ) (df : List (ℤ × Option ℚ)) (rem : List ℤ) : Prop :=
  (∃ x ∈ df.map Prod.fst, x ∉ rem) ∧
  (∀ x ∈ rem, x ∈ rem0) ∧
  (∀ x ∈ df.map Prod.fst, x ∈ rem0 → x ∈ rem)

/-! ## Stage 7: `remove_vel_outliers` (lines 386–451)

Same two-phase shape as stage 4 but with `k = 3`, bounds per column over the
`lat`/`lon` velocity deltas of the fully complete (`df.dropna()`) train
rows, and outlier *rows dropped* rather than blanked. -/

/-- Whether all columns of the post-stage-4 frame are present in a row. -/
def rowNComplete (linAcc : Bool) (r : RowN) : Bool :=
  r.timeStamp.isSome && r.X.isSome && r.Y.isSome && r.Z.isSome &&
    r.a.isSome && r.b.isSome && r.c.isSome && r.lat.isSome && r.lon.isSome &&
    r.incident.isSome && (!linAcc || (r.XL.isSome && r.YL.isSome && r.ZL.isSome))

/-- The pooled `(lat, lon)` pairs of the complete train rows (train files
with no complete row are removed, mirroring `os.remove`). -/
def velTrainPairs (linAcc : Bool) (train : List (List RowN)) : List (ℚ × ℚ) :=
  ((train.filter (fun f => !(f.filter (rowNComplete linAcc)).isEmpty)).map
    (fun f => (f.filter (rowNComplete linAcc)).map
      (fun r => (r.lat.getD 0, r.lon.getD 0)))).flatten

/-- The per-column `((lower_lat, lower_lon), (upper_lat, upper_lon))`
velocity bounds, computed with `k = 3` from the train split only. -/
def velStageBounds (linAcc : Bool) (d : Dataset RowN) : (ℚ × ℚ) × (ℚ × ℚ) :=
  let pairs := velTrainPairs linAcc d.train
  let latB := iqrBounds 3 (pairs.map Prod.fst)
  let lonB := iqrBounds 3 (pairs.map Prod.snd)
  ((latB.1, lonB.1), (latB.2, lonB.2))

/-- A row is a velocity outlier when its `lat` or `lon` value falls outside
the respective column bounds (missing values are never outliers). -/
def velOutlierRow (lower upper : ℚ × ℚ) (r : RowN) : Bool :=
  (match r.lat with
   | some v => decide (v < lower.1) || decide (upper.1 < v)
   | none => false) ||
  (match r.lon with
   | some v => decide (v < lower.2) || decide (upper.2 < v)
   | none => false)

/-- `remove_vel_outliers_inner`: drop the outlier rows. -/
def remove_vel_outliers_inner (lower upper : ℚ × ℚ) (ride : List RowN) : List RowN :=
  ride.filter (fun r => !velOutlierRow lower upper r)

/-- The whole velocity-outlier stage over the dataset. -/
def remove_vel_outliers (linAcc : Bool) (d : Dataset RowN) : Dataset RowN :=
  let train1 := d.train.filter (fun f => !(f.filter (rowNComplete linAcc)).isEmpty)
  let bds := velStageBounds linAcc d
  ⟨train1.map (remove_vel_outliers_inner bds.1 bds.2),
   d.test.map (remove_vel_outliers_inner bds.1 bds.2),
   d.val.map (remove_vel_outliers_inner bds.1 bds.2)⟩

/-! ## Stage 9: `scale` (lines 483–542)

If `<dir>/scaler.save` exists the scaler is loaded and *not* refit; otherwise
a `MaxAbsScaler` is fit by `partial_fit` over the train files (after
`fillna(0)`) and dumped to that path.  The fitted parameter is the
per-feature maximum absolute value over all train rows, feature order
`['lat','lon','X','Y','Z','a','b','c']` (plus `'XL','YL','ZL'` with the
linear-accelerometer flag). -/

/-- Number of scaled features. -/
def scalerDim (linAcc : Bool) : ℕ :=
  if linAcc then 11 else 8

/-- The feature vector of one row fed to the scaler, after `fillna(0)`. -/
def scalerFeatures (linAcc : Bool) (r : RowN) : List ℚ :=
  if linAcc then
    [r.lat.getD 0, r.lon.getD 0, r.X.getD 0, r.Y.getD 0, r.Z.getD 0,
     r.a.getD 0, r.b.getD 0, r.c.getD 0, r.XL.getD 0, r.YL.getD 0, r.ZL.getD 0]
  else
    [r.lat.getD 0, r.lon.getD 0, r.X.getD 0, r.Y.getD 0, r.Z.getD 0,
     r.a.getD 0, r.b.getD 0, r.c.getD 0]

/-- `MaxAbsScaler` fit via repeated `partial_fit`: per-feature maximum of
the absolute values over every train row (the running maxima start at `0`,
the identity of `max` on absolute values). -/
def fitScaler (linAcc : Bool) (train : List (List RowN)) : List ℚ :=
  (train.flatten.map (fun r => (scalerFeatures linAcc r).map (fun x => |x|))).foldl
    (fun m v => List.zipWith max m v) (List.replicate (scalerDim linAcc) 0)

/-- The fit-or-load decision of `scale`: given the persisted scaler file
content (`none` when `<dir>/scaler.save` does not exist) and the train
split, return the scaler actually used, the persisted content after the
stage, and whether a fit happened. -/
def scaleStage (linAcc : Bool) (saved : Option (List ℚ))
    (train : List (List RowN)) : List ℚ × Option (List ℚ) × Bool :=
  match saved with
  | some s => (s, some s, false)
  | none => (fitScaler linAcc train, some (fitScaler linAcc train), true)

/-! ## Stage 11: `rotate_bucket` (lines 628–664)

`np.matmul(block, R)` with `block` of shape `(ws, sl, 3)` and `R` of shape
`(3, 3)` maps each cell vector `v` to `v · R` (entry `j` is
`Σᵢ vᵢ·R[i][j]`).  Channels `0–2` (accelerometer) and `3–5` (gyroscope) are
rotated independently; channels `6…` are concatenated unchanged. -/

/-- The 180° rotation matrix about the X, Y or Z axis; `None` for any other
axis argument. -/
def rotMat : ℕ → Option (List (List ℚ))
  | 0 => some [[1, 0, 0], [0, -1, 0], [0, 0, -1]]
  | 1 => some [[-1, 0, 0], [0, 1, 0], [0, 0, -1]]
  | 2 => some [[-1, 0, 0], [0, -1, 0], [0, 0, 1]]
  | _ => none

/-- Row-vector/matrix product `v · m` for a `3 × 3` matrix. -/
def vecMatMul (v : List ℚ) (m : List (List ℚ)) : List ℚ :=
  (List.range 3).map (fun j => ((v.zip m).map (fun p => p.1 * p.2.getD j 0)).sum)

/-- One cell of the rotated bucket: rotated accelerometer block `[0:3]`,
rotated gyroscope block `[3:6]`, then the untouched channels `[6:]`. -/
def rotateCell (m : List (List ℚ)) (cell : List ℚ) : List ℚ :=
  vecMatMul (cell.take 3) m ++ vecMatMul ((cell.drop 3).take 3) m ++ cell.drop 6

/-- `rotate_bucket`. -/
def rotate_bucket (bucket : List (List (List ℚ))) (axis : ℕ) :
    Option (List (List (List ℚ))) :=
  (rotMat axis).map (fun m => bucket.map (fun row => row.map (rotateCell m)))

/-! ## General list lemmas used by several proofs -/

/-- `getD` of a mapped list at an in-range index. -/
theorem getD_map {α β : Type} (f : α → β) :
    ∀ (l : List α) (i : ℕ) (d : α) (d2 : β), i < l.length →
      (l.map f).getD i d2 = f (l.getD i d)
  | [], i, _, _, h => absurd h (by simp)
  | _ :: _, 0, _, _, _ => rfl
  | _ :: l, i + 1, d, d2, h => by
      simpa using getD_map f l i d d2 (by simpa using h)

/-- `getD` at an in-range index is a member. -/
theorem getD_mem {α : Type} :
    ∀ (l : List α) (i : ℕ) (d : α), i < l.length → l.getD i d ∈ l
  | x :: l, 0, _, _ => List.mem_cons_self x l
  | _ :: l, i + 1, d, h =>
      List.mem_cons_of_mem _ (getD_mem l i d (by simpa using h))
  | [], _, _, h => absurd h (by simp)

/-! ## Claim C2 -/

/-- Claim C2 (refuted; evidence of the code bug): a 100-row ride file —
far too short to fill even one `5 × 20` bucket after dropping the first and
last 60 rows — is bucketized *without any error* into zero buckets, because
`arr[60:-60, :]` on a 2-D numpy array never raises; the
`'not enough data points to remove'` error the code (and spec) intend is
unreachable for such files, so the file is silently skipped (and deleted). -/
theorem bucketize_zero_buckets_no_error :
    numBuckets 5 20 (List.replicate 100 (List.replicate 9 (0 : ℚ))) = 0 ∧
    bucketizeFile 5 20 (List.replicate 100 (List.replicate 9 (0 : ℚ))) =
      Except.ok [] := by
  constructor <;> rfl

/-! ## Claim C3 -/

/-- Claim C3: the GPS-accuracy outlier bounds (`k = 1.5`) and the velocity
outlier bounds (`k = 3`) are a function of the train split only: two
datasets with identical train splits but arbitrarily different test/val
splits yield identical bounds. -/
theorem outlier_bounds_train_only (d1 d2 : Dataset Row) (e1 e2 : Dataset RowN)
    (linAcc : Bool) (ht : d1.train = d2.train) (he : e1.train = e2.train) :
    accStageBounds d1 = accStageBounds d2 ∧
    velStageBounds linAcc e1 = velStageBounds linAcc e2 := by
  constructor
  · unfold accStageBounds
    rw [ht]
  · unfold velStageBounds
    rw [he]

/-- Witness for C3 at concrete datasets: equal train splits, different
test/val splits. -/
theorem outlier_bounds_train_only_instance :
    accStageBounds ⟨[[{ (default : Row) with acc := some 5 }]], [], []⟩ =
      accStageBounds
        ⟨[[{ (default : Row) with acc := some 5 }]], [[default]], [[default]]⟩ ∧
    velStageBounds false ⟨[], [], []⟩ =
      velStageBounds false ⟨[], [[(default : RowN)]], []⟩ :=
  outlier_bounds_train_only _ _ _ _ false rfl rfl

/-! ## Claim C9: fold lemmas for the max-absolute fit -/

/-- `getD` through `zipWith max` at an in-range index. -/
theorem getD_zipWith_max :
    ∀ (u v : List ℚ) (j : ℕ), j < u.length → j < v.length →
      (List.zipWith max u v).getD j 0 = max (u.getD j 0) (v.getD j 0)
  | [], _, _, h, _ => absurd h (by simp)
  | _ :: _, [], _, _, h => absurd h (by simp)
  | _ :: _, _ :: _, 0, _, _ => rfl
  | _ :: u, _ :: v, j + 1, hu, hv => by
      simpa using getD_zipWith_max u v j (by simpa using hu) (by simpa using hv)

/-- The running-maximum fold preserves the vector length. -/
theorem foldl_vmax_length :
    ∀ (vs : List (List ℚ)) (init : List ℚ),
      (∀ v ∈ vs, v.length = init.length) →
      (vs.foldl (fun m v => List.zipWith max m v) init).length = init.length
  | [], _, _ => rfl
  | v :: vs, init, h => by
      have h1 : (List.zipWith max init v).length = init.length := by
        simp [List.length_zipWith, h v (by simp)]
      have h2 := foldl_vmax_length vs (List.zipWith max init v)
        (fun w hw => by rw [h1]; exact h w (by simp [hw]))
      simpa [h1] using h2

/-- The running-maximum fold only grows each coordinate. -/
theorem foldl_vmax_le_init :
    ∀ (vs : List (List ℚ)) (init : List ℚ),
      (∀ v ∈ vs, v.length = init.length) →
      ∀ j, j < init.length →
        init.getD j 0 ≤ (vs.foldl (fun m v => List.zipWith max m v) init).getD j 0
  | [], _, _, _, _ => le_refl _
  | v :: vs, init, h, j, hj => by
      have hv : v.length = init.length := h v (by simp)
      have h1 : (List.zipWith max init v).length = init.length := by
        simp [List.length_zipWith, hv]
      have step : init.getD j 0 ≤ (List.zipWith max init v).getD j 0 := by
        rw [getD_zipWith_max init v j hj (by rw [hv]; exact hj)]
        exact le_max_left _ _
      have rest := foldl_vmax_le_init vs (List.zipWith max init v)
        (fun w hw => by rw [h1]; exact h w (by simp [hw])) j (by rw [h1]; exact hj)
      simpa using le_trans step rest

/-- Every contributing vector is dominated coordinatewise by the fold. -/
theorem foldl_vmax_bound :
    ∀ (vs : List (List ℚ)) (init : List ℚ),
      (∀ v ∈ vs, v.length = init.length) →
      ∀ v ∈ vs, ∀ j, j < init.length →
        v.getD j 0 ≤ (vs.foldl (fun m v => List.zipWith max m v) init).getD j 0
  | [], _, _, _, hv, _, _ => absurd hv (by simp)
  | w :: vs, init, h, v, hv, j, hj => by
      have hw : w.length = init.length := h w (by simp)
      have h1 : (List.zipWith max init w).length = init.length := by
        simp [List.length_zipWith, hw]
      have htail : ∀ u ∈ vs, u.length = (List.zipWith max init w).length :=
        fun u hu => by rw [h1]; exact h u (by simp [hu])
      rcases List.mem_cons.mp hv with rfl | hv2
      · have step : v.getD j 0 ≤ (List.zipWith max init v).getD j 0 := by
          rw [getD_zipWith_max init v j hj (by rw [hw]; exact hj)]
          exact le_max_right _ _
        have rest := foldl_vmax_le_init vs (List.zipWith max init v) htail j
          (by rw [h1]; exact hj)
        simpa using le_trans step rest
      · have rest := foldl_vmax_bound vs (List.zipWith max init w) htail v hv2 j
          (by rw [h1]; exact hj)
        simpa using rest

/-- The scaler feature vector always has `scalerDim` entries. -/
theorem scalerFeatures_length (linAcc : Bool) (r : RowN) :
    (scalerFeatures linAcc r).length = scalerDim linAcc := by
  cases linAcc <;> simp [scalerFeatures, scalerDim]

/-- `getD` through `map |·|` at an in-range index. -/
theorem getD_map_abs :
    ∀ (l : List ℚ) (j : ℕ), j < l.length →
      (l.map (fun x => |x|)).getD j 0 = |l.getD j 0|
  | [], _, h => absurd h (by simp)
  | _ :: _, 0, _ => rfl
  | _ :: l, j + 1, h => by
      simpa using getD_map_abs l j (by simpa using h)

/-- Claim C9: with a persisted scaler the stage reuses it unchanged — the
scaler used is the saved one, independent of the train split, nothing is
refit and the persisted content is not rewritten; without one, the stage
recovers by fitting fresh max-absolute parameters on the train split only
and persisting them.  The last conjunct certifies that the fresh fit really
is a per-feature max-absolute bound over the train rows. -/
theorem scaler_fit_once_reuse (linAcc : Bool) (s : List ℚ)
    (train train2 : List (List RowN)) :
    scaleStage linAcc (some s) train = (s, some s, false) ∧
    (scaleStage linAcc (some s) train).1 = (scaleStage linAcc (some s) train2).1 ∧
    scaleStage linAcc none train =
      (fitScaler linAcc train, some (fitScaler linAcc train), true) ∧
    (∀ file ∈ train, ∀ r ∈ file, ∀ j, j < scalerDim linAcc →
      |(scalerFeatures linAcc r).getD j 0| ≤ (fitScaler linAcc train).getD j 0) := by
  refine ⟨rfl, rfl, rfl, ?_⟩
  intro file hfile r hr j hj
  have hrmem : r ∈ train.flatten := List.mem_flatten.mpr ⟨file, hfile, hr⟩
  have hvlen : ∀ v ∈ train.flatten.map (fun r => (scalerFeatures linAcc r).map (fun x => |x|)),
      v.length = (List.replicate (scalerDim linAcc) (0 : ℚ)).length := by
    intro v hv
    obtain ⟨r1, _, rfl⟩ := List.mem_map.mp hv
    simp [scalerFeatures_length]
  have hmem : (scalerFeatures linAcc r).map (fun x => |x|) ∈
      train.flatten.map (fun r => (scalerFeatures linAcc r).map (fun x => |x|)) :=
    List.mem_map_of_mem _ hrmem
  have hb := foldl_vmax_bound _ _ hvlen _ hmem j (by simpa using hj)
  rw [getD_map_abs _ j (by rw [scalerFeatures_length]; exact hj)] at hb
  exact hb

/-- Witness for C9 at a concrete saved scaler and train splits. -/
theorem scaler_fit_once_reuse_instance :
    scaleStage false (some [3]) [[(default : RowN)]] = ([3], some [3], false) ∧
    (scaleStage false (some [3]) [[(default : RowN)]]).1 =
      (scaleStage false (some [3]) []).1 ∧
    scaleStage false none [[(default : RowN)]] =
      (fitScaler false [[(default : RowN)]],
        some (fitScaler false [[(default : RowN)]]), true) ∧
    (∀ file ∈ [[(default : RowN)]], ∀ r ∈ file, ∀ j, j < scalerDim false →
      |(scalerFeatures false r).getD j 0| ≤
        (fitScaler false [[(default : RowN)]]).getD j 0) :=
  scaler_fit_once_reuse false [3] [[(default : RowN)]] []

/-! ## Claim C10 -/

/-- Claim C10: the per-file GPS-accuracy outlier pass drops the `acc`
column from every file (outliers present or not — the output frame `RowN`
has no `acc` field), blanks exactly `lat` and `lon` on out-of-bound rows,
and leaves every other row and field unchanged. -/
theorem acc_outlier_inner_frame (lower upper : ℚ) (ride : List Row) :
    (remove_acc_outliers_inner lower upper ride).length = ride.length ∧
    (∀ i, i < ride.length →
      ((remove_acc_outliers_inner lower upper ride).getD i default).timeStamp =
          (ride.getD i default).timeStamp ∧
      ((remove_acc_outliers_inner lower upper ride).getD i default).X =
          (ride.getD i default).X ∧
      ((remove_acc_outliers_inner lower upper ride).getD i default).Y =
          (ride.getD i default).Y ∧
      ((remove_acc_outliers_inner lower upper ride).getD i default).Z =
          (ride.getD i default).Z ∧
      ((remove_acc_outliers_inner lower upper ride).getD i default).a =
          (ride.getD i default).a ∧
      ((remove_acc_outliers_inner lower upper ride).getD i default).b =
          (ride.getD i default).b ∧
      ((remove_acc_outliers_inner lower upper ride).getD i default).c =
          (ride.getD i default).c ∧
      ((remove_acc_outliers_inner lower upper ride).getD i default).XL =
          (ride.getD i default).XL ∧
      ((remove_acc_outliers_inner lower upper ride).getD i default).YL =
          (ride.getD i default).YL ∧
      ((remove_acc_outliers_inner lower upper ride).getD i default).ZL =
          (ride.getD i default).ZL ∧
      ((remove_acc_outliers_inner lower upper ride).getD i default).incident =
          (ride.getD i default).incident ∧
      (accOutlierRow lower upper (ride.getD i default) = true →
        ((remove_acc_outliers_inner lower upper ride).getD i default).lat = none ∧
        ((remove_acc_outliers_inner lower upper ride).getD i default).lon = none) ∧
      (accOutlierRow lower upper (ride.getD i default) = false →
        ((remove_acc_outliers_inner lower upper ride).getD i default).lat =
            (ride.getD i default).lat ∧
        ((remove_acc_outliers_inner lower upper ride).getD i default).lon =
            (ride.getD i default).lon)) ∧
    ((∀ r ∈ ride, accOutlierRow lower upper r = false) →
      remove_acc_outliers_inner lower upper ride = ride.map dropAccCol) := by
  refine ⟨by simp [remove_acc_outliers_inner], ?_, ?_⟩
  · intro i hi
    have hout : (remove_acc_outliers_inner lower upper ride).getD i default =
        (fun r => if accOutlierRow lower upper r
          then dropAccCol { r with lat := none, lon := none }
          else dropAccCol r) (ride.getD i default) := by
      unfold remove_acc_outliers_inner
      exact getD_map _ ride i default default hi
    by_cases h : accOutlierRow lower upper (ride.getD i default) = true
    · rw [hout]
      simp only [if_pos h]
      exact ⟨rfl, rfl, rfl, rfl, rfl, rfl, rfl, rfl, rfl, rfl, rfl,
        fun _ => ⟨rfl, rfl⟩,
        fun hcon => by rw [hcon] at h; exact Bool.noConfusion h⟩
    · rw [hout]
      simp only [if_neg h]
      exact ⟨rfl, rfl, rfl, rfl, rfl, rfl, rfl, rfl, rfl, rfl, rfl,
        fun hcon => absurd hcon h,
        fun _ => ⟨rfl, rfl⟩⟩
  · intro hall
    unfold remove_acc_outliers_inner
    refine List.map_congr_left ?_
    intro r hr
    rw [hall r hr]
    simp

/-- Witness for C10 at a concrete ride with one out-of-bound row and one
in-bound row: the processed file has both rows, and the out-of-bound first
row has `lat` blanked. -/
theorem acc_outlier_inner_frame_instance :
    (remove_acc_outliers_inner 0 10
      [{ (default : Row) with acc := some 100, lat := some 1, lon := some 2 },
       { (default : Row) with acc := some 5, lat := some 3, lon := some 4 }]).length = 2 ∧
    ((remove_acc_outliers_inner 0 10
      [{ (default : Row) with acc := some 100, lat := some 1, lon := some 2 },
       { (default : Row) with acc := some 5, lat := some 3, lon := some 4 }]).getD 0
        default).lat = none := by
  have H := acc_outlier_inner_frame 0 10
    [{ (default : Row) with acc := some 100, lat := some 1, lon := some 2 },
     { (default : Row) with acc := some 5, lat := some 3, lon := some 4 }]
  exact ⟨H.1.trans rfl,
    ((H.2.1 0 (by decide)).2.2.2.2.2.2.2.2.2.2.2.1 (by decide)).1⟩

/-! ## Claims C5 and C4: bucketizer lemmas -/

/-- Truncation removes exactly the first and last 60 rows' worth of length. -/
theorem truncRows_length (rows : List (List ℚ)) :
    (truncRows rows).length = rows.length - 120 := by
  simp only [truncRows, List.length_take, List.length_drop]
  omega

/-- Truncated rows are rows of the original ride. -/
theorem truncRows_subset (rows : List (List ℚ)) : truncRows rows ⊆ rows :=
  (List.Sublist.trans (List.take_sublist _ _) (List.drop_sublist _ _)).subset

/-- Group rows are truncated rows. -/
theorem bucketGroup_subset (windowSize slices : ℕ) (rows : List (List ℚ)) (i : ℕ) :
    bucketGroup windowSize slices rows i ⊆ truncRows rows :=
  (List.Sublist.trans (List.take_sublist _ _) (List.drop_sublist _ _)).subset

/-- Within the bucket count, every group is full:
`window_size * slices` rows. -/
theorem bucketGroup_length (windowSize slices : ℕ) (rows : List (List ℚ)) (i : ℕ)
    (hi : i < numBuckets windowSize slices rows) :
    (bucketGroup windowSize slices rows i).length = windowSize * slices := by
  have h0 : (i + 1) * (windowSize * slices) ≤ (truncRows rows).length := by
    calc (i + 1) * (windowSize * slices)
        ≤ ((truncRows rows).length / (windowSize * slices)) * (windowSize * slices) :=
          Nat.mul_le_mul_right _ hi
      _ ≤ (truncRows rows).length := Nat.div_mul_le_self _ _
  have h1 : i * (windowSize * slices) + windowSize * slices ≤ (truncRows rows).length := by
    rw [← Nat.succ_mul]
    exact h0
  simp only [bucketGroup, List.length_take, List.length_drop]
  set k := windowSize * slices with hk
  set L := (truncRows rows).length with hL
  set m := i * k with hm
  omega

/-- Claim C5: the bucketization of a (non-degenerate) ride file succeeds and
produces exactly `⌊(n - 120) / (window_size · slices)⌋` buckets (`ℕ`
subtraction: a ride with at most 120 rows yields zero buckets), each of
shape `window_size × slices × channels` after the slice/window transpose. -/
theorem bucket_count_floor (windowSize slices channels : ℕ) (rows : List (List ℚ))
    (hlen : 2 ≤ rows.length) (hch : 0 < channels)
    (hrows : ∀ r ∈ rows, r.length = channels) :
    bucketizeFile windowSize slices rows =
      Except.ok (buildBuckets windowSize slices rows) ∧
    (buildBuckets windowSize slices rows).length =
      (rows.length - 120) / (windowSize * slices) ∧
    ∀ b ∈ buildBuckets windowSize slices rows,
      b.length = windowSize ∧
      ∀ srow ∈ b, srow.length = slices ∧
        ∀ cell ∈ srow, cell.length = channels := by
  refine ⟨?_, ?_, ?_⟩
  · unfold bucketizeFile
    rw [if_neg (by omega)]
  · simp [buildBuckets, buildLabeledBuckets, numBuckets, truncRows_length]
  · intro b hb
    obtain ⟨p, hp, rfl⟩ := List.mem_map.mp hb
    obtain ⟨i, hi, rfl⟩ := List.mem_map.mp hp
    have hiN : i < numBuckets windowSize slices rows := List.mem_range.mp hi
    constructor
    · simp [mkBucket]
    · intro srow hsrow
      obtain ⟨w, hw, rfl⟩ := List.mem_map.mp hsrow
      have hwN : w < windowSize := List.mem_range.mp hw
      constructor
      · simp [mkBucket]
      · intro cell hcell
        obtain ⟨s1, hs, rfl⟩ := List.mem_map.mp hcell
        have hsN : s1 < slices := List.mem_range.mp hs
        have hidx : s1 * windowSize + w < windowSize * slices := by
          have h2 : (s1 + 1) * windowSize ≤ slices * windowSize :=
            Nat.mul_le_mul_right _ hsN
          calc s1 * windowSize + w
              < s1 * windowSize + windowSize := Nat.add_lt_add_left hwN _
            _ = (s1 + 1) * windowSize := (Nat.succ_mul s1 windowSize).symm
            _ ≤ slices * windowSize := h2
            _ = windowSize * slices := Nat.mul_comm _ _
        have hlt : s1 * windowSize + w < (bucketGroup windowSize slices rows i).length := by
          rw [bucketGroup_length windowSize slices rows i hiN]
          exact hidx
        have hmem : (bucketGroup windowSize slices rows i).getD (s1 * windowSize + w) [] ∈ rows :=
          truncRows_subset rows (bucketGroup_subset windowSize slices rows i
            (getD_mem _ _ _ hlt))
        have hclen :
            ((bucketGroup windowSize slices rows i).getD (s1 * windowSize + w) []).length =
              channels := hrows _ hmem
        simp only [List.length_append, List.length_dropLast, hclen, List.length_cons,
          List.length_nil]
        omega

/-- Witness for C5 at the spec's concrete scenario: a 500-row ride with
`window_size = 5`, `slices = 20` (9 channels) bucketizes without error into
exactly 3 buckets of shape `5 × 20 × 9`. -/
theorem bucket_count_floor_instance :
    bucketizeFile 5 20 (List.replicate 500 (List.replicate 9 (0 : ℚ))) =
      Except.ok (buildBuckets 5 20 (List.replicate 500 (List.replicate 9 (0 : ℚ)))) ∧
    (buildBuckets 5 20 (List.replicate 500 (List.replicate 9 (0 : ℚ)))).length = 3 ∧
    ∀ b ∈ buildBuckets 5 20 (List.replicate 500 (List.replicate 9 (0 : ℚ))),
      b.length = 5 ∧ ∀ srow ∈ b, srow.length = 20 ∧ ∀ cell ∈ srow, cell.length = 9 := by
  have H := bucket_count_floor 5 20 9 (List.replicate 500 (List.replicate 9 (0 : ℚ)))
    (by rw [List.length_replicate]; omega) (by norm_num)
    (fun r hr => by rw [List.eq_of_mem_replicate hr, List.length_replicate])
  refine ⟨H.1, ?_, H.2.2⟩
  rw [H.2.1, List.length_replicate]

/-- `getD` over `List.range`. -/
theorem getD_range (n i : ℕ) (h : i < n) : (List.range n).getD i 0 = i := by
  rw [List.getD_eq_getElem _ _ (by simpa using h)]
  simp

/-- The bucket list written in index form. -/
theorem buildBuckets_map_form (windowSize slices : ℕ) (rows : List (List ℚ)) :
    buildBuckets windowSize slices rows =
      (List.range (numBuckets windowSize slices rows)).map
        (fun i => mkBucket windowSize slices
          (if groupHasIncident (bucketGroup windowSize slices rows i) then 1 else 0)
          (bucketGroup windowSize slices rows i)) := by
  unfold buildBuckets buildLabeledBuckets
  rw [List.map_map]
  rfl

/-- Claim C4: in both output modes the bucket tensors coincide (the
addressable dictionary stores exactly the in-memory bucket list, just
keyed), and for every bucket the trailing label channel is uniform — all
`window_size × slices` cells carry one value `L ∈ {0, 1}` — with `L = 1`
iff some contributing row of the bucket's group has incident flag 1
(assuming the incident column is 0/1-valued, as the equidistant resampler
guarantees). -/
theorem bucket_label_uniform_or (windowSize slices : ℕ) (stem : String)
    (rows : List (List ℚ))
    (hbin : ∀ r ∈ truncRows rows, lastCell r = 0 ∨ lastCell r = 1) :
    (buildBucketsDict windowSize slices stem rows).map Prod.snd =
      buildBuckets windowSize slices rows ∧
    ∀ i, i < (buildBuckets windowSize slices rows).length →
      ∃ L : ℚ, (L = 0 ∨ L = 1) ∧
        (∀ brow ∈ (buildBuckets windowSize slices rows).getD i [],
          ∀ cell ∈ brow, cell.getLastD 0 = L) ∧
        (L = 1 ↔ ∃ r ∈ bucketGroup windowSize slices rows i, lastCell r = 1) := by
  constructor
  · unfold buildBucketsDict buildBuckets
    rw [List.map_map]
    rw [show (Prod.snd ∘ fun p : ℕ × (Bool × List (List (List ℚ))) =>
        (bucketName stem p.1 p.2.1, p.2.2)) = Prod.snd ∘ Prod.snd from rfl]
    rw [← List.map_map, List.enum_map_snd]
  · intro i hi
    have hi' : i < numBuckets windowSize slices rows := by
      simpa [buildBuckets, buildLabeledBuckets] using hi
    have hbX : (buildBuckets windowSize slices rows).getD i [] =
        mkBucket windowSize slices
          (if groupHasIncident (bucketGroup windowSize slices rows i) then 1 else 0)
          (bucketGroup windowSize slices rows i) := by
      rw [buildBuckets_map_form]
      rw [getD_map _ (List.range _) i 0 [] (by simpa using hi')]
      rw [getD_range _ _ hi']
    refine ⟨if groupHasIncident (bucketGroup windowSize slices rows i) then 1 else 0,
      by split <;> simp, ?_, ?_⟩
    · rw [hbX]
      intro brow hbrow cell hcell
      obtain ⟨w, _, rfl⟩ := List.mem_map.mp hbrow
      obtain ⟨s1, _, rfl⟩ := List.mem_map.mp hcell
      exact List.getLastD_concat _ _ _
    · cases h : groupHasIncident (bucketGroup windowSize slices rows i) with
      | true =>
        rw [show (if (true : Bool) = true then (1 : ℚ) else 0) = 1 from rfl]
        constructor
        · intro _
          obtain ⟨r, hr, hne⟩ := List.any_eq_true.mp h
          have hne2 : lastCell r ≠ 0 := by simpa using hne
          rcases hbin r (bucketGroup_subset windowSize slices rows i hr) with h0 | h1
          · exact absurd h0 hne2
          · exact ⟨r, hr, h1⟩
        · intro _
          rfl
      | false =>
        rw [show (if (false : Bool) = true then (1 : ℚ) else 0) = 0 from rfl]
        constructor
        · intro h01
          exact absurd h01 (by norm_num)
        · rintro ⟨r, hr, h1⟩
          have hall := List.any_eq_false.mp h r hr
          rw [h1] at hall
          simp at hall

set_option maxRecDepth 8000 in
/-- Witness for C4 at a concrete 130-row ride (one `5 × 2` bucket whose
group contains an incident row): both modes agree and every bucket's label
channel is uniform and OR-correct. -/
theorem bucket_label_uniform_or_instance :
    (buildBucketsDict 5 2 "VM2_w" (List.replicate 60 [0, 0] ++
        ([0, 1] :: List.replicate 69 [0, 0]))).map Prod.snd =
      buildBuckets 5 2 (List.replicate 60 [0, 0] ++
        ([0, 1] :: List.replicate 69 [0, 0])) ∧
    ∀ i, i < (buildBuckets 5 2 (List.replicate 60 [0, 0] ++
        ([0, 1] :: List.replicate 69 [0, 0]))).length →
      ∃ L : ℚ, (L = 0 ∨ L = 1) ∧
        (∀ brow ∈ (buildBuckets 5 2 (List.replicate 60 [0, 0] ++
            ([0, 1] :: List.replicate 69 [0, 0]))).getD i [],
          ∀ cell ∈ brow, cell.getLastD 0 = L) ∧
        (L = 1 ↔ ∃ r ∈ bucketGroup 5 2 (List.replicate 60 [0, 0] ++
            ([0, 1] :: List.replicate 69 [0, 0])) i, lastCell r = 1) :=
  bucket_label_uniform_or 5 2 "VM2_w"
    (List.replicate 60 [0, 0] ++ ([0, 1] :: List.replicate 69 [0, 0]))
    (by decide)

/-! ## Claim C6 -/

/-- Row-vector product with a diagonal `3 × 3` matrix, computed. -/
theorem vecMatMul_diag (x y z d1 d2 d3 : ℚ) :
    vecMatMul [x, y, z] [[d1, 0, 0], [0, d2, 0], [0, 0, d3]] =
      [x * d1, y * d2, z * d3] := by
  simp [vecMatMul, List.range_succ]

/-- Applying a diagonal rotation with unit-square entries twice to a cell
with at least 6 channels returns the cell. -/
theorem rotateCell_diag_invol (d1 d2 d3 : ℚ) (h1 : d1 * d1 = 1)
    (h2 : d2 * d2 = 1) (h3 : d3 * d3 = 1) (cell : List ℚ) (hc : 6 ≤ cell.length) :
    rotateCell [[d1, 0, 0], [0, d2, 0], [0, 0, d3]]
      (rotateCell [[d1, 0, 0], [0, d2, 0], [0, 0, d3]] cell) = cell := by
  obtain ⟨x, y, z, ht1⟩ := List.length_eq_three.mp
    (show (cell.take 3).length = 3 by rw [List.length_take]; omega)
  obtain ⟨u, v2, w2, ht2⟩ := List.length_eq_three.mp
    (show ((cell.drop 3).take 3).length = 3 by
      rw [List.length_take, List.length_drop]; omega)
  have hcell : cell = [x, y, z] ++ ([u, v2, w2] ++ cell.drop 6) := by
    conv_lhs => rw [← List.take_append_drop 3 cell]
    rw [ht1]
    congr 1
    conv_lhs => rw [← List.take_append_drop 3 (cell.drop 3)]
    rw [ht2, List.drop_drop]
  have e1 : rotateCell [[d1, 0, 0], [0, d2, 0], [0, 0, d3]] cell =
      [x * d1, y * d2, z * d3] ++ [u * d1, v2 * d2, w2 * d3] ++ cell.drop 6 := by
    unfold rotateCell
    rw [ht1, ht2, vecMatMul_diag, vecMatMul_diag]
  rw [e1]
  have e3 : rotateCell [[d1, 0, 0], [0, d2, 0], [0, 0, d3]]
      ([x * d1, y * d2, z * d3] ++ [u * d1, v2 * d2, w2 * d3] ++ cell.drop 6) =
      vecMatMul [x * d1, y * d2, z * d3] [[d1, 0, 0], [0, d2, 0], [0, 0, d3]] ++
        vecMatMul [u * d1, v2 * d2, w2 * d3] [[d1, 0, 0], [0, d2, 0], [0, 0, d3]] ++
        cell.drop 6 := rfl
  rw [e3, vecMatMul_diag, vecMatMul_diag]
  simp only [mul_assoc, h1, h2, h3, mul_one]
  rw [List.append_assoc]
  exact hcell.symm

/-- A single diagonal rotation leaves the channels from index 6 on
unchanged. -/
theorem rotateCell_diag_drop6 (d1 d2 d3 : ℚ) (cell : List ℚ)
    (hc : 6 ≤ cell.length) :
    (rotateCell [[d1, 0, 0], [0, d2, 0], [0, 0, d3]] cell).drop 6 = cell.drop 6 := by
  obtain ⟨x, y, z, ht1⟩ := List.length_eq_three.mp
    (show (cell.take 3).length = 3 by rw [List.length_take]; omega)
  obtain ⟨u, v2, w2, ht2⟩ := List.length_eq_three.mp
    (show ((cell.drop 3).take 3).length = 3 by
      rw [List.length_take, List.length_drop]; omega)
  have e1 : rotateCell [[d1, 0, 0], [0, d2, 0], [0, 0, d3]] cell =
      [x * d1, y * d2, z * d3] ++ [u * d1, v2 * d2, w2 * d3] ++ cell.drop 6 := by
    unfold rotateCell
    rw [ht1, ht2, vecMatMul_diag, vecMatMul_diag]
  rw [e1]
  rfl

/-- Claim C6: for each axis in `{0, 1, 2}`, `rotate_bucket` succeeds, is an
involution (`rotate (rotate b axis) axis = b`), and a single application
leaves every channel from index 6 on (GPS and label) unchanged — only the
accelerometer block (channels 0–2) and the gyroscope block (channels 3–5)
are touched. -/
theorem rotate_bucket_involution_frame (bucket : List (List (List ℚ)))
    (axis : ℕ) (haxis : axis < 3)
    (hcell : ∀ brow ∈ bucket, ∀ cell ∈ brow, 6 ≤ cell.length) :
    ∃ rotated, rotate_bucket bucket axis = some rotated ∧
      rotate_bucket rotated axis = some bucket ∧
      rotated.map (fun brow => brow.map (fun cell => cell.drop 6)) =
        bucket.map (fun brow => brow.map (fun cell => cell.drop 6)) := by
  obtain ⟨d1, d2, d3, hm, hs1, hs2, hs3⟩ :
      ∃ d1 d2 d3 : ℚ, rotMat axis = some [[d1, 0, 0], [0, d2, 0], [0, 0, d3]] ∧
        d1 * d1 = 1 ∧ d2 * d2 = 1 ∧ d3 * d3 = 1 := by
    interval_cases axis
    · exact ⟨1, -1, -1, rfl, by norm_num, by norm_num, by norm_num⟩
    · exact ⟨-1, 1, -1, rfl, by norm_num, by norm_num, by norm_num⟩
    · exact ⟨-1, -1, 1, rfl, by norm_num, by norm_num, by norm_num⟩
  refine ⟨bucket.map (fun brow =>
      brow.map (rotateCell [[d1, 0, 0], [0, d2, 0], [0, 0, d3]])), ?_, ?_, ?_⟩
  · unfold rotate_bucket
    rw [hm]
    rfl
  · unfold rotate_bucket
    rw [hm]
    rw [Option.map_some']
    congr 1
    rw [List.map_map]
    have hpoint : ∀ brow ∈ bucket,
        ((fun brow => brow.map (rotateCell [[d1, 0, 0], [0, d2, 0], [0, 0, d3]])) ∘
          (fun brow => brow.map (rotateCell [[d1, 0, 0], [0, d2, 0], [0, 0, d3]]))) brow =
          brow := by
      intro brow hbrow
      simp only [Function.comp]
      rw [List.map_map]
      have hcpoint : ∀ cell ∈ brow,
          (rotateCell [[d1, 0, 0], [0, d2, 0], [0, 0, d3]] ∘
            rotateCell [[d1, 0, 0], [0, d2, 0], [0, 0, d3]]) cell = cell :=
        fun cell hcm =>
          rotateCell_diag_invol d1 d2 d3 hs1 hs2 hs3 cell (hcell brow hbrow cell hcm)
      rw [List.map_congr_left hcpoint, List.map_id']
    rw [List.map_congr_left hpoint, List.map_id']
  · rw [List.map_map]
    apply List.map_congr_left
    intro brow hbrow
    simp only [Function.comp]
    rw [List.map_map]
    apply List.map_congr_left
    intro cell hcm
    exact rotateCell_diag_drop6 d1 d2 d3 cell (hcell brow hbrow cell hcm)

/-- Witness for C6 at a concrete one-cell bucket with 8 channels and the X
axis. -/
theorem rotate_bucket_involution_frame_instance :
    ∃ rotated, rotate_bucket [[[1, 2, 3, 4, 5, 6, 7, 8]]] 0 = some rotated ∧
      rotate_bucket rotated 0 = some [[[1, 2, 3, 4, 5, 6, 7, 8]]] ∧
      rotated.map (fun brow => brow.map (fun cell => cell.drop 6)) =
        [[[(1 : ℚ), 2, 3, 4, 5, 6, 7, 8]]].map
          (fun brow => brow.map (fun cell => cell.drop 6)) :=
  rotate_bucket_involution_frame [[[1, 2, 3, 4, 5, 6, 7, 8]]] 0 (by norm_num)
    (by decide)

/-! ## Claim C7 -/

/-- Claim C7 (counterexample): the decontamination stage does *not* act on
every ride file — a file whose name stem ends in `'i'` (iOS export) passes
through unchanged, so its GPS-only row (here with `lat`, `lon`, `acc` all
present) keeps its nonzero inertial value `X = 5`. -/
theorem decontaminate_ios_file_unchanged :
    remove_sensor_values_from_gps_timestamps_inner false ['V', 'M', '2', '_', '1', 'i']
      [{ (default : Row) with X := some 5, lat := some 1, lon := some 2, acc := some 3 }] =
      [{ (default : Row) with X := some 5, lat := some 1, lon := some 2, acc := some 3 }] ∧
    gpsComplete
      { (default : Row) with X := some 5, lat := some 1, lon := some 2, acc := some 3 } = true ∧
    ({ (default : Row) with X := some 5, lat := some 1, lon := some 2, acc := some 3 } : Row).X =
      some 5 := by
  refine ⟨?_, rfl, rfl⟩
  unfold remove_sensor_values_from_gps_timestamps_inner
  decide

/-- Claim C7 (amended to Android files): for every ride file whose name stem
ends in `'a'`, the decontamination stage blanks exactly the inertial fields
(`X,Y,Z,a,b,c`, plus `XL,YL,ZL` when the linear-accelerometer flag is set)
of every GPS-only row (`lat`, `lon` and `acc` all present), and leaves every
other row — and every non-inertial field of the blanked rows — unchanged. -/
theorem decontaminate_android_spec (linAcc : Bool) (stem : List Char)
    (ride : List Row) (hstem : stem.getLast? = some 'a') :
    (remove_sensor_values_from_gps_timestamps_inner linAcc stem ride).length = ride.length ∧
    ∀ i, i < ride.length →
      ((remove_sensor_values_from_gps_timestamps_inner linAcc stem ride).getD i default).timeStamp =
          (ride.getD i default).timeStamp ∧
      ((remove_sensor_values_from_gps_timestamps_inner linAcc stem ride).getD i default).lat =
          (ride.getD i default).lat ∧
      ((remove_sensor_values_from_gps_timestamps_inner linAcc stem ride).getD i default).lon =
          (ride.getD i default).lon ∧
      ((remove_sensor_values_from_gps_timestamps_inner linAcc stem ride).getD i default).acc =
          (ride.getD i default).acc ∧
      ((remove_sensor_values_from_gps_timestamps_inner linAcc stem ride).getD i default).incident =
          (ride.getD i default).incident ∧
      (gpsComplete (ride.getD i default) = true →
        ((remove_sensor_values_from_gps_timestamps_inner linAcc stem ride).getD i default).X = none ∧
        ((remove_sensor_values_from_gps_timestamps_inner linAcc stem ride).getD i default).Y = none ∧
        ((remove_sensor_values_from_gps_timestamps_inner linAcc stem ride).getD i default).Z = none ∧
        ((remove_sensor_values_from_gps_timestamps_inner linAcc stem ride).getD i default).a = none ∧
        ((remove_sensor_values_from_gps_timestamps_inner linAcc stem ride).getD i default).b = none ∧
        ((remove_sensor_values_from_gps_timestamps_inner linAcc stem ride).getD i default).c = none ∧
        ((remove_sensor_values_from_gps_timestamps_inner linAcc stem ride).getD i default).XL =
          (if linAcc then none else (ride.getD i default).XL) ∧
        ((remove_sensor_values_from_gps_timestamps_inner linAcc stem ride).getD i default).YL =
          (if linAcc then none else (ride.getD i default).YL) ∧
        ((remove_sensor_values_from_gps_timestamps_inner linAcc stem ride).getD i default).ZL =
          (if linAcc then none else (ride.getD i default).ZL)) ∧
      (gpsComplete (ride.getD i default) = false →
        (remove_sensor_values_from_gps_timestamps_inner linAcc stem ride).getD i default =
          ride.getD i default) := by
  have hA : isAndroidStem stem = true := by simp [isAndroidStem, hstem]
  have hmap : remove_sensor_values_from_gps_timestamps_inner linAcc stem ride =
      ride.map (fun r => if gpsComplete r then blankSensors linAcc r else r) := by
    unfold remove_sensor_values_from_gps_timestamps_inner
    rw [if_pos hA]
  refine ⟨by rw [hmap]; simp, ?_⟩
  intro i hi
  have hout : (remove_sensor_values_from_gps_timestamps_inner linAcc stem ride).getD i default =
      (if gpsComplete (ride.getD i default) then blankSensors linAcc (ride.getD i default)
       else ride.getD i default) := by
    rw [hmap]
    exact getD_map _ ride i default default hi
  by_cases h : gpsComplete (ride.getD i default) = true
  · rw [hout, if_pos h]
    exact ⟨rfl, rfl, rfl, rfl, rfl,
      fun _ => ⟨rfl, rfl, rfl, rfl, rfl, rfl, rfl, rfl, rfl⟩,
      fun hcon => by rw [hcon] at h; exact Bool.noConfusion h⟩
  · rw [hout, if_neg h]
    exact ⟨rfl, rfl, rfl, rfl, rfl,
      fun hcon => absurd hcon h,
      fun _ => rfl⟩

/-- Witness for C7 (amended) at a concrete Android file with one GPS-only
row carrying a sensor value: the row survives and its `X` field is
blanked. -/
theorem decontaminate_android_spec_instance :
    (remove_sensor_values_from_gps_timestamps_inner false ['V', 'M', 'a']
      [{ (default : Row) with X := some 5, lat := some 1, lon := some 2, acc := some 3 }]).length = 1 ∧
    ((remove_sensor_values_from_gps_timestamps_inner false ['V', 'M', 'a']
      [{ (default : Row) with X := some 5, lat := some 1, lon := some 2, acc := some 3 }]).getD 0
        default).X = none := by
  have H := decontaminate_android_spec false ['V', 'M', 'a']
    [{ (default : Row) with X := some 5, lat := some 1, lon := some 2, acc := some 3 }]
    (by decide)
  exact ⟨H.1.trans rfl, ((H.2 0 (by decide)).2.2.2.2.2.1 (by decide)).1⟩

/-! ## Claim C8 -/

/-- Claim C8 (counterexample): a ride consisting of a single fully complete
row is deleted by the filter, although it has one valid row and no
adjacent-row timestamp gap at all — `df.diff()` turns the first row's
timestamp into `NaN`, so the first row never survives the subsequent
`dropna` and a one-row ride always comes out empty.  The claimed
"deletes iff gap > 6000 ms or zero valid rows" is therefore false. -/
theorem invalid_rides_complete_single_row_deleted :
    remove_invalid_rides_inner false
      [{ timeStamp := some 0, X := some 1, Y := some 1, Z := some 1, a := some 1,
         b := some 1, c := some 1, XL := none, YL := none, ZL := none,
         lat := some 1, lon := some 1, acc := some 1, incident := some 0 }] = none ∧
    specValidRowCount false
      [{ timeStamp := some 0, X := some 1, Y := some 1, Z := some 1, a := some 1,
         b := some 1, c := some 1, XL := none, YL := none, ZL := none,
         lat := some 1, lon := some 1, acc := some 1, incident := some 0 }] = 1 ∧
    specLargeGap
      [{ timeStamp := some 0, X := some 1, Y := some 1, Z := some 1, a := some 1,
         b := some 1, c := some 1, XL := none, YL := none, ZL := none,
         lat := some 1, lon := some 1, acc := some 1, incident := some 0 }] = false := by
  decide

/-- Claim C8 (amended): the filter deletes a ride file iff some defined
adjacent-row timestamp difference exceeds 6000 ms or no row survives the
diff-and-dropna step (a row survives when all its non-timestamp fields are
present *and* its timestamp difference to the previous row is defined — in
particular the first row never survives, so one-row rides are always
deleted); a surviving file is unchanged and all its defined adjacent-row
timestamp differences are at most 6000 ms. -/
theorem invalid_rides_filter_spec (linAcc : Bool) (ride : List Row) :
    (remove_invalid_rides_inner linAcc ride = none ↔
      keptAfterDiffDropna linAcc ride = [] ∨ hasBreakpoint ride = true) ∧
    (∀ keptRide, remove_invalid_rides_inner linAcc ride = some keptRide →
      keptRide = ride ∧
      ∀ d ∈ tsDiffs ride, ∀ v : ℤ, d = some v → v ≤ 6000) := by
  constructor
  · unfold remove_invalid_rides_inner
    split
    next hcond =>
      simp only [true_iff]
      rcases Bool.or_eq_true_iff.mp hcond with h1 | h2
      · exact Or.inl (List.isEmpty_iff.mp h1)
      · exact Or.inr h2
    next hcond =>
      simp only [reduceCtorEq, false_iff]
      intro hor
      apply hcond
      rcases hor with h1 | h2
      · exact Bool.or_eq_true_iff.mpr (Or.inl (List.isEmpty_iff.mpr h1))
      · exact Bool.or_eq_true_iff.mpr (Or.inr h2)
  · intro keptRide hkeep
    unfold remove_invalid_rides_inner at hkeep
    split at hkeep
    next => exact absurd hkeep (by simp)
    next hcond =>
      have hbp : hasBreakpoint ride = false := by
        rcases Bool.or_eq_false_iff.mp (Bool.not_eq_true _ |>.mp hcond) with ⟨_, h2⟩
        exact h2
      refine ⟨(Option.some.injEq _ _ ▸ hkeep).symm, ?_⟩
      intro d hd v hv
      by_contra hgt
      have : hasBreakpoint ride = true := by
        unfold hasBreakpoint
        refine List.any_eq_true.mpr ⟨d, hd, ?_⟩
        rw [hv]
        simpa using lt_of_not_le hgt
      rw [this] at hbp
      exact Bool.noConfusion hbp

/-- Witness for C8 (amended) at a concrete two-row complete ride with a
100 ms gap: the file is kept and all defined timestamp differences are at
most 6000 ms. -/
theorem invalid_rides_filter_spec_instance :
    ¬(remove_invalid_rides_inner false
      [{ timeStamp := some 0, X := some 1, Y := some 1, Z := some 1, a := some 1,
         b := some 1, c := some 1, XL := none, YL := none, ZL := none,
         lat := some 1, lon := some 1, acc := some 1, incident := some 0 },
       { timeStamp := some 100, X := some 2, Y := some 2, Z := some 2, a := some 2,
         b := some 2, c := some 2, XL := none, YL := none, ZL := none,
         lat := some 2, lon := some 2, acc := some 2, incident := some 0 }] = none) ∧
    (∀ d ∈ tsDiffs
      [{ timeStamp := some 0, X := some 1, Y := some 1, Z := some 1, a := some 1,
         b := some 1, c := some 1, XL := none, YL := none, ZL := none,
         lat := some 1, lon := some 1, acc := some 1, incident := some 0 },
       { timeStamp := some 100, X := some 2, Y := some 2, Z := some 2, a := some 2,
         b := some 2, c := some 2, XL := none, YL := none, ZL := none,
         lat := some 2, lon := some 2, acc := some 2, incident := some 0 }],
      ∀ v : ℤ, d = some v → v ≤ 6000) := by
  have H := invalid_rides_filter_spec false
    [{ timeStamp := some 0, X := some 1, Y := some 1, Z := some 1, a := some 1,
       b := some 1, c := some 1, XL := none, YL := none, ZL := none,
       lat := some 1, lon := some 1, acc := some 1, incident := some 0 },
     { timeStamp := some 100, X := some 2, Y := some 2, Z := some 2, a := some 2,
       b := some 2, c := some 2, XL := none, YL := none, ZL := none,
       lat := some 2, lon := some 2, acc := some 2, incident := some 0 }]
  constructor
  · rw [H.1]
    decide
  · intro d hd v hv
    exact (H.2
      [{ timeStamp := some 0, X := some 1, Y := some 1, Z := some 1, a := some 1,
         b := some 1, c := some 1, XL := none, YL := none, ZL := none,
         lat := some 1, lon := some 1, acc := some 1, incident := some 0 },
       { timeStamp := some 100, X := some 2, Y := some 2, Z := some 2, a := some 2,
         b := some 2, c := some 2, XL := none, YL := none, ZL := none,
         lat := some 2, lon := some 2, acc := some 2, incident := some 0 }]
      (by decide)).2 d hd v hv

/-! ## Claim C1 -/

/-- Specification of the nearest-candidate fold from a seeded accumulator:
it returns a minimizer of the distance to `t` among the seed and the
scanned elements. -/
theorem nearest_fold_spec (t : ℤ) :
    ∀ (ts : List ℤ) (b : ℤ),
      ∃ n, ts.foldl (nearestStep t) (some b) = some n ∧
        (n = b ∨ n ∈ ts) ∧ (n - t).natAbs ≤ (b - t).natAbs ∧
        ∀ y ∈ ts, (n - t).natAbs ≤ (y - t).natAbs
  | [], b => ⟨b, rfl, Or.inl rfl, le_refl _, by simp⟩
  | x :: ts, b => by
      rw [List.foldl_cons]
      by_cases hx : (x - t).natAbs ≤ (b - t).natAbs
      · have hstep : nearestStep t (some b) x = some x := by
          show (if (x - t).natAbs ≤ (b - t).natAbs then some x else some b) = some x
          rw [if_pos hx]
        rw [hstep]
        obtain ⟨n, heq, hmem, hle, hall⟩ := nearest_fold_spec t ts x
        refine ⟨n, heq, ?_, le_trans hle hx, ?_⟩
        · rcases hmem with rfl | h
          · exact Or.inr (List.mem_cons_self _ _)
          · exact Or.inr (List.mem_cons_of_mem _ h)
        · intro y hy
          rcases List.mem_cons.mp hy with rfl | hy2
          · exact hle
          · exact hall y hy2
      · have hstep : nearestStep t (some b) x = some b := by
          show (if (x - t).natAbs ≤ (b - t).natAbs then some x else some b) = some b
          rw [if_neg hx]
        rw [hstep]
        obtain ⟨n, heq, hmem, hle, hall⟩ := nearest_fold_spec t ts b
        refine ⟨n, heq, ?_, hle, ?_⟩
        · rcases hmem with rfl | h
          · exact Or.inl rfl
          · exact Or.inr (List.mem_cons_of_mem _ h)
        · intro y hy
          rcases List.mem_cons.mp hy with rfl | hy2
          · exact le_trans hle (le_of_not_le hx)
          · exact hall y hy2

/-- On a nonempty index the nearest search succeeds, returns a member, and
that member minimizes the distance to `t`. -/
theorem nearestIdx_spec (ts : List ℤ) (t : ℤ) (hne : ts ≠ []) :
    ∃ n, nearestIdx ts t = some n ∧ n ∈ ts ∧
      ∀ y ∈ ts, (n - t).natAbs ≤ (y - t).natAbs := by
  match ts, hne with
  | x :: ts, _ =>
    unfold nearestIdx
    rw [List.foldl_cons]
    have hstep : nearestStep t none x = some x := rfl
    rw [hstep]
    obtain ⟨n, heq, hmem, hle, hall⟩ := nearest_fold_spec t ts x
    refine ⟨n, heq, ?_, ?_⟩
    · rcases hmem with rfl | h
      · exact List.mem_cons_self _ _
      · exact List.mem_cons_of_mem _ h
    · intro y hy
      rcases List.mem_cons.mp hy with rfl | hy2
      · exact hle
      · exact hall y hy2

/-- Setting the incident flag does not change the timestamp index. -/
theorem setIncidentAt_map_fst (df : List (ℤ × Option ℚ)) (i : ℤ) :
    (setIncidentAt df i).map Prod.fst = df.map Prod.fst := by
  unfold setIncidentAt
  rw [List.map_map]
  apply List.map_congr_left
  intro p _
  by_cases h : p.1 = i <;> simp [h]

/-- After `setIncidentAt df i` with `i` in the index, the labelled pair
`(i, 1.0)` is a row of the frame. -/
theorem mem_setIncidentAt_target (df : List (ℤ × Option ℚ)) (i : ℤ)
    (h : i ∈ df.map Prod.fst) : (i, some (1 : ℚ)) ∈ setIncidentAt df i := by
  obtain ⟨p, hp, hpi⟩ := List.mem_map.mp h
  unfold setIncidentAt
  refine List.mem_map.mpr ⟨p, hp, ?_⟩
  rw [if_pos hpi, hpi]

/-- Rows already labelled `1.0` stay labelled after any `setIncidentAt`. -/
theorem mem_setIncidentAt_keep (df : List (ℤ × Option ℚ)) (i : ℤ) (b : ℤ)
    (hb : (b, some (1 : ℚ)) ∈ df) : (b, some (1 : ℚ)) ∈ setIncidentAt df i := by
  unfold setIncidentAt
  refine List.mem_map.mpr ⟨(b, some 1), hb, ?_⟩
  split <;> rfl

/-- Full specification of the single-incident search loop under the
invariant: it terminates with an assignment `a` that was never removable,
is labelled `1.0` in the output frame, minimizes the distance to `t` over
the output index, while the frame only shrinks, the removable set only
shrinks, previously assigned labels survive, and the invariant is
preserved. -/
theorem assignIncident_spec (rem0 : List ℤ) (t : ℤ) :
    ∀ (fuel : ℕ) (df : List (ℤ × Option ℚ)) (rem : List ℤ),
      df.length ≤ fuel → ReInv rem0 df rem →
      ∃ a df1 rem1,
        assignIncident fuel df rem t = some (a, df1, rem1) ∧
        a ∉ rem0 ∧ a ∉ rem1 ∧ (a, some (1 : ℚ)) ∈ df1 ∧
        df1.map Prod.fst ⊆ df.map Prod.fst ∧
        rem1 ⊆ rem ∧
        (∀ y ∈ df1.map Prod.fst, (a - t).natAbs ≤ (y - t).natAbs) ∧
        (∀ b1 : ℤ, b1 ∉ rem → (b1, some (1 : ℚ)) ∈ df → (b1, some 1) ∈ df1) ∧
        ReInv rem0 df1 rem1 := by
  intro fuel
  induction fuel with
  | zero =>
    intro df rem hfuel hinv
    obtain ⟨⟨x, hx, _⟩, _, _⟩ := hinv
    have hdf : df = [] := List.length_eq_zero.mp (Nat.le_zero.mp hfuel)
    rw [hdf] at hx
    simp at hx
  | succ fuel ih =>
    intro df rem hfuel hinv
    obtain ⟨⟨x0, hx0, hx0r⟩, hsub, hinv3⟩ := hinv
    have hdfne : df.map Prod.fst ≠ [] := by
      intro hcon
      rw [hcon] at hx0
      simp at hx0
    obtain ⟨n, hneq, hnmem, hnmin⟩ := nearestIdx_spec (df.map Prod.fst) t hdfne
    by_cases hn : n ∈ rem
    · have hlt : (df.filter (fun p => decide (p.1 ≠ n))).length < df.length := by
        obtain ⟨p, hp, hpn⟩ := List.mem_map.mp hnmem
        refine List.length_filter_lt_length_iff_exists.mpr ⟨p, hp, ?_⟩
        simp [hpn]
      have hfuel2 : (df.filter (fun p => decide (p.1 ≠ n))).length ≤ fuel := by omega
      have hinv2 : ReInv rem0 (df.filter (fun p => decide (p.1 ≠ n))) (rem.erase n) := by
        refine ⟨⟨x0, ?_, ?_⟩, ?_, ?_⟩
        · obtain ⟨p, hp, hpx⟩ := List.mem_map.mp hx0
          refine List.mem_map.mpr ⟨p, ?_, hpx⟩
          refine List.mem_filter.mpr ⟨hp, ?_⟩
          have hpne : p.1 ≠ n := by
            rw [hpx]
            intro hcon
            rw [hcon] at hx0r
            exact hx0r hn
          simp [hpne]
        · intro hcon
          exact hx0r (List.mem_of_mem_erase hcon)
        · intro x hx
          exact hsub x (List.mem_of_mem_erase hx)
        · intro x hx hxm
          obtain ⟨p, hp, hpx⟩ := List.mem_map.mp hx
          have hpf := List.mem_filter.mp hp
          have hxn : x ≠ n := by
            rw [← hpx]
            simpa using hpf.2
          have hxdf : x ∈ df.map Prod.fst := List.mem_map.mpr ⟨p, hpf.1, hpx⟩
          exact (List.mem_erase_of_ne hxn).mpr (hinv3 x hxdf hxm)
      obtain ⟨a, df1, rem1, heq2, ha0, ha1, hamem, hsub1, hremsub, hmin, hpres, hinv1⟩ :=
        ih _ _ hfuel2 hinv2
      refine ⟨a, df1, rem1, ?_, ha0, ha1, hamem, ?_, ?_, hmin, ?_, hinv1⟩
      · unfold assignIncident
        rw [hneq]
        show (if n ∈ rem then
            assignIncident fuel (df.filter fun p => decide (p.1 ≠ n)) (rem.erase n) t
          else some (n, setIncidentAt df n, rem)) = some (a, df1, rem1)
        rw [if_pos hn]
        exact heq2
      · intro y hy
        obtain ⟨p, hp, hpy⟩ := List.mem_map.mp (hsub1 hy)
        exact List.mem_map.mpr ⟨p, (List.mem_filter.mp hp).1, hpy⟩
      · exact fun y hy => List.erase_subset _ _ (hremsub hy)
      · intro b1 hb1r hb1m
        have hb1n : b1 ≠ n := by
          intro hcon
          rw [hcon] at hb1r
          exact hb1r hn
        have hb1f : (b1, some (1 : ℚ)) ∈ df.filter (fun p => decide (p.1 ≠ n)) :=
          List.mem_filter.mpr ⟨hb1m, by simp [hb1n]⟩
        have hb1e : b1 ∉ rem.erase n := fun hcon => hb1r (List.mem_of_mem_erase hcon)
        exact hpres b1 hb1e hb1f
    · refine ⟨n, setIncidentAt df n, rem, ?_, ?_, hn, ?_, ?_, ?_, ?_, ?_, ?_⟩
      · unfold assignIncident
        rw [hneq]
        show (if n ∈ rem then
            assignIncident fuel (df.filter fun p => decide (p.1 ≠ n)) (rem.erase n) t
          else some (n, setIncidentAt df n, rem)) = some (n, setIncidentAt df n, rem)
        rw [if_neg hn]
      · intro hcon
        exact hn (hinv3 n hnmem hcon)
      · exact mem_setIncidentAt_target df n hnmem
      · rw [setIncidentAt_map_fst]
        exact fun y hy => hy
      · exact fun y hy => hy
      · intro y hy
        rw [setIncidentAt_map_fst] at hy
        exact hnmin y hy
      · intro b1 _ hb1m
        exact mem_setIncidentAt_keep df n b1 hb1m
      · refine ⟨⟨n, ?_, hn⟩, hsub, ?_⟩
        · rw [setIncidentAt_map_fst]
          exact hnmem
        · intro x hx hxm
          rw [setIncidentAt_map_fst] at hx
          exact hinv3 x hx hxm

/-- Specification of the whole incident loop: one assignment per snapshotted
incident, each never-removable, labelled `1.0` in the final frame, not in
the final removable set, and distance-minimal over the final index. -/
theorem processIncidents_spec (rem0 : List ℤ) :
    ∀ (ts : List ℤ) (df : List (ℤ × Option ℚ)) (rem : List ℤ),
      ReInv rem0 df rem →
      ∃ asg dfF remF,
        processIncidents ts df rem = some (asg, dfF, remF) ∧
        asg.length = ts.length ∧
        dfF.map Prod.fst ⊆ df.map Prod.fst ∧
        remF ⊆ rem ∧
        (∀ b1 : ℤ, b1 ∉ rem → (b1, some (1 : ℚ)) ∈ df → (b1, some 1) ∈ dfF) ∧
        (∀ i, i < ts.length →
          asg.getD i 0 ∉ rem0 ∧
          asg.getD i 0 ∉ remF ∧
          (asg.getD i 0, some (1 : ℚ)) ∈ dfF ∧
          ∀ y ∈ dfF.map Prod.fst,
            (asg.getD i 0 - ts.getD i 0).natAbs ≤ (y - ts.getD i 0).natAbs) ∧
        ReInv rem0 dfF remF
  | [], df, rem, hinv =>
      ⟨[], df, rem, rfl, rfl, fun _ h => h, fun _ h => h, fun _ _ h => h,
        fun i hi => absurd hi (by simp), hinv⟩
  | t :: ts, df, rem, hinv => by
      obtain ⟨a, df1, rem1, heq1, ha0, ha1, hamem, hsub1, hrem1, hmin1, hpres1, hinv1⟩ :=
        assignIncident_spec rem0 t (df.length + 1) df rem (by omega) hinv
      obtain ⟨asg, dfF, remF, heqT, hlenT, hsubT, hremT, hpresT, hidxT, hinvT⟩ :=
        processIncidents_spec rem0 ts df1 rem1 hinv1
      refine ⟨a :: asg, dfF, remF, ?_, by simp [hlenT], ?_, ?_, ?_, ?_, hinvT⟩
      · unfold processIncidents
        rw [heq1]
        show (match processIncidents ts df1 rem1 with
          | none => none
          | some (rest, df2, rem2) => some (a :: rest, df2, rem2)) =
          some (a :: asg, dfF, remF)
        rw [heqT]
      · exact fun y hy => hsub1 (hsubT hy)
      · exact fun y hy => hrem1 (hremT hy)
      · intro b1 hbr hbm
        exact hpresT b1 (fun hcon => hbr (hrem1 hcon)) (hpres1 b1 hbr hbm)
      · intro i hi
        cases i with
        | zero =>
          refine ⟨ha0, fun hcon => ha1 (hremT hcon), hpresT a ha1 hamem, ?_⟩
          intro y hy
          simpa using hmin1 y (hsubT hy)
        | succ j =>
          have hj : j < ts.length := by simpa using hi
          simpa using hidxT j hj

/-- Claim C1: if some timestamp of the merged frame is not removable, the
equidistant incident-reassignment of lines 327–352 succeeds; every original
row with incident flag > 0 is re-assigned to exactly one timestamp (one
assignment per snapshotted incident, in order); each assigned timestamp is
never one of the removable timestamps given at entry, survives the final
`df.drop(removables)` with its incident set to `1.0`, and is at minimal
distance from its incident's timestamp among all surviving timestamps —
removable nearest candidates having been deleted and consumed from the
removable set along the way, so no incident is silently dropped. -/
theorem equidistant_incident_reassignment (df : List (ℤ × Option ℚ))
    (removables : List ℤ) (haway : ∃ x ∈ df.map Prod.fst, x ∉ removables) :
    ∃ asg dfF remF,
      equidistantReassign df removables = some (asg, dfF, remF) ∧
      asg.length = (incidentTimestamps df).length ∧
      ∀ i, i < asg.length →
        asg.getD i 0 ∉ removables ∧
        (asg.getD i 0, (1 : ℚ)) ∈ dfF ∧
        ∀ y ∈ dfF.map Prod.fst,
          (asg.getD i 0 - (incidentTimestamps df).getD i 0).natAbs ≤
            (y - (incidentTimestamps df).getD i 0).natAbs := by
  have hinv : ReInv removables df removables :=
    ⟨haway, fun x hx => hx, fun x _ hx => hx⟩
  obtain ⟨asg, df1, rem1, heq, hlen, hsub, hremsub, hpres, hidx, hinv1⟩ :=
    processIncidents_spec removables (incidentTimestamps df) df removables hinv
  refine ⟨asg,
    (df1.filter (fun p => decide (p.1 ∉ rem1))).map (fun p => (p.1, p.2.getD 0)),
    rem1, ?_, hlen, ?_⟩
  · unfold equidistantReassign
    rw [heq]
  · intro i hi
    have hi' : i < (incidentTimestamps df).length := by
      rw [← hlen]
      exact hi
    obtain ⟨hnc0, hncF, hmem, hmin⟩ := hidx i hi'
    refine ⟨hnc0, ?_, ?_⟩
    · refine List.mem_map.mpr ⟨(asg.getD i 0, some 1), ?_, rfl⟩
      exact List.mem_filter.mpr ⟨hmem, by simpa using hncF⟩
    · intro y hy
      rw [List.map_map] at hy
      obtain ⟨q, hqf, hqy⟩ := List.mem_map.mp hy
      apply hmin
      exact List.mem_map.mpr ⟨q, (List.mem_filter.mp hqf).1, hqy⟩

/-- Witness for C1 at a concrete two-row frame: the incident's own
timestamp 0 is removable, so its row is dropped and consumed, and the
incident is re-assigned to the surviving timestamp 100. -/
theorem equidistant_incident_reassignment_instance :
    ∃ asg dfF remF,
      equidistantReassign [((0 : ℤ), some (1 : ℚ)), ((100 : ℤ), none)] [(0 : ℤ)] =
        some (asg, dfF, remF) ∧
      asg.length =
        (incidentTimestamps [((0 : ℤ), some (1 : ℚ)), ((100 : ℤ), none)]).length ∧
      ∀ i, i < asg.length →
        asg.getD i 0 ∉ [(0 : ℤ)] ∧
        (asg.getD i 0, (1 : ℚ)) ∈ dfF ∧
        ∀ y ∈ dfF.map Prod.fst,
          (asg.getD i 0 -
            (incidentTimestamps
              [((0 : ℤ), some (1 : ℚ)), ((100 : ℤ), none)]).getD i 0).natAbs ≤
          (y - (incidentTimestamps
              [((0 : ℤ), some (1 : ℚ)), ((100 : ℤ), none)]).getD i 0).natAbs :=
  equidistant_incident_reassignment
    [((0 : ℤ), some (1 : ℚ)), ((100 : ℤ), none)] [(0 : ℤ)] (by decide)
